import Mathlib

/-!
Shallow embedding of the pure core of the `ai-code-reviewer` GitHub action
(`src/main.ts`): the chunk indexer `gatherDiffData`, the response validator
`getFormattedAIResponse`, and the comment mapper `mapReviewsToComments`,
together with the exclusion filter applied in `main` before indexing.

Conventions of the embedding:
  - `parse-diff` change records are the inductive `Change`; an `add` change
    carries its new line number in the field the library calls `ln`, a `del`
    change carries its old line number in `ln`, and a `normal` (context)
    change carries old and new numbers in `ln1` and `ln2`.
  - JavaScript truthiness on numbers (`c.ln ? c.ln : c.ln2`) is modelled
    explicitly: the value `0` is falsy, an absent field is falsy, and
    interpolating an absent field into a template string prints "undefined".
  - External model calls are oracles passed as parameters; a call that
    throws is `Except.error`, a call whose parsed payload is null is
    `Except.ok none`.
-/

namespace CodeReviewer

/-- A `parse-diff` change record, as consumed by `gatherDiffData`. -/
inductive Change where
  | add (ln : Nat) (content : String)
  | del (ln : Nat) (content : String)
  | normal (ln1 ln2 : Nat) (content : String)
deriving DecidableEq, Repr

/-- The `ln` field of a change: present on add and del records only. -/
def Change.lnField : Change → Option Nat
  | .add ln _ => some ln
  | .del ln _ => some ln
  | .normal _ _ _ => none

/-- The `ln2` field of a change: present on normal (context) records only. -/
def Change.ln2Field : Change → Option Nat
  | .normal _ ln2 _ => some ln2
  | _ => none

/-- The `content` field of a change. -/
def Change.content : Change → String
  | .add _ s => s
  | .del _ s => s
  | .normal _ _ s => s

/-- A `parse-diff` chunk (hunk): the `@@ ... @@` header line and the changes. -/
structure Chunk where
  content : String
  changes : List Change
deriving DecidableEq, Repr

/-- A `parse-diff` file record, restricted to the fields `gatherDiffData`
and the exclusion filter read: the post-change path (the field the library
calls `to`, a Lean keyword, so named `toPath` here) and the chunks. -/
structure File where
  toPath : Option String
  chunks : List Chunk
deriving DecidableEq, Repr

/-- Interpolating a number-or-undefined into a JS template string. -/
def jsShow : Option Nat → String
  | some n => toString n
  | none => "undefined"

/-- One rendered change line: the template
`(c.ln ? c.ln : c.ln2) ++ " " ++ c.content` with JS truthiness, where a
`ln` equal to 0 is falsy and falls through to `ln2`. -/
def renderChange (c : Change) : String :=
  let chosen : Option Nat :=
    match c.lnField with
    | some n => if n = 0 then c.ln2Field else some n
    | none => c.ln2Field
  jsShow chosen ++ " " ++ c.content

/-- The `diffText` built for one chunk: header and rendered changes joined
with newlines (`[chunk.content, ...chunk.changes.map(...)].join("\n")`). -/
def renderChunk (chunk : Chunk) : String :=
  String.intercalate "\n" (chunk.content :: chunk.changes.map renderChange)

/-- The `DiffChunkData` record emitted by `gatherDiffData`. -/
structure DiffChunkData where
  chunkIndex : Nat
  filePath : String
  diffText : String
deriving DecidableEq, Repr

/-- The inner loop of `gatherDiffData` over one file's chunks, pushing one
record per chunk and incrementing the running counter each time. -/
def gatherChunks (filePath : String) : List Chunk → Nat → List DiffChunkData
  | [], _ => []
  | c :: cs, idx =>
      { chunkIndex := idx, filePath := filePath, diffText := renderChunk c }
        :: gatherChunks filePath cs (idx + 1)

/-- The outer loop of `gatherDiffData`: files with `to === "/dev/null"` are
skipped (without touching the counter); each remaining file contributes one
record per chunk, the counter advancing by the file's chunk count. -/
def gatherDiffDataAux : List File → Nat → List DiffChunkData
  | [], _ => []
  | file :: rest, idx =>
      if file.toPath = some "/dev/null" then
        gatherDiffDataAux rest idx
      else
        gatherChunks (file.toPath.getD "") file.chunks idx
          ++ gatherDiffDataAux rest (idx + file.chunks.length)

/-- `gatherDiffData` from `src/main.ts`: flatten all chunks of all
non-deleted files into index-stamped records, `globalIndex` starting at 0. -/
def gatherDiffData (parsedDiff : List File) : List DiffChunkData :=
  gatherDiffDataAux parsedDiff 0

/-- The exclusion filter applied in `main` before `gatherDiffData`:
a file is kept when no exclude pattern matches `file.to ?? ""`.
The glob matcher (`minimatch`) is an abstract parameter. -/
def filterExcluded (matchGlob : String → String → Bool)
    (excludePatterns : List String) (parsedDiff : List File) : List File :=
  parsedDiff.filter fun file =>
    !(excludePatterns.any fun pattern => matchGlob (file.toPath.getD "") pattern)

/-- The comment side enum of the review schema. -/
inductive Side where
  | LEFT
  | RIGHT
deriving DecidableEq, Repr

/-- One review of the validated model output (`RawReview` in the source). -/
structure RawReview where
  lineNumber : String
  side : Side
  reviewComment : String
deriving DecidableEq, Repr

/-- One chunk-scoped review group of the validated model output (`Review`
in the source). Its `chunkIndex` is untrusted model output, hence `Int`. -/
structure Review where
  chunkIndex : Int
  reviews : List RawReview
deriving DecidableEq, Repr

/-- A submission-ready comment (`FormattedReview` in the source). The
`line` field models the JS number produced by `parseInt`: `none` is `NaN`. -/
structure FormattedReview where
  body : String
  path : String
  line : Option Nat
  side : Side
deriving DecidableEq, Repr

/-- `getFormattedAIResponse` from `src/main.ts`. `rawContent` is the primary
call's result (`none` models null). The correction call is the oracle:
`Except.error` models a thrown error (caught, yielding `[]`),
`Except.ok none` models a null `parsed` payload (`parsed?.review || []`
yields `[]`), `Except.ok (some r)` models a schema-conforming parse. -/
def getFormattedAIResponse (oracle : String → Except Unit (Option (List Review)))
    (rawContent : Option String) : List Review :=
  match rawContent with
  | none => []
  | some s =>
      if s = "" then []
      else
        match oracle s with
        | .error _ => []
        | .ok none => []
        | .ok (some reviews) => reviews

/-- Whether control in `getFormattedAIResponse` reaches the correction
call: `if (!rawContent) return []` short-circuits on null and on the empty
string, both falsy in JS. -/
def correctionInvoked (rawContent : Option String) : Bool :=
  match rawContent with
  | none => false
  | some s => !(s = "")

/-- `review.lineNumber.replace(/[+-]/g, "")`: delete every plus and minus
sign, wherever it occurs. -/
def stripSigns (s : String) : String :=
  String.mk (s.data.filter fun ch => ch != '+' && ch != '-')

/-- Digit run to number, base 10. -/
def digitsToNat (ds : List Char) : Nat :=
  ds.foldl (fun n c => n * 10 + (c.toNat - 48)) 0

/-- `parseInt(s, 10)` on a sign-free string: skip leading whitespace, read
the leading digit run; no digits gives NaN, modelled as `none`. -/
def parseIntJs (s : String) : Option Nat :=
  let ds := (s.data.dropWhile fun ch => ch.isWhitespace).takeWhile fun ch => ch.isDigit
  if ds.isEmpty then none else some (digitsToNat ds)

/-- The line number a review's `lineNumber` string resolves to:
`parseInt(review.lineNumber.replace(/[+-]/g, ""), 10)`. -/
def lineOfRef (s : String) : Option Nat :=
  parseIntJs (stripSigns s)

/-- The body of the inner loop of `mapReviewsToComments`: LEFT-side reviews
are skipped; otherwise one comment is pushed. -/
def commentForReview (chunkData : DiffChunkData) (review : RawReview) :
    Option FormattedReview :=
  if review.side = Side.LEFT then none
  else
    some { body := review.reviewComment, path := chunkData.filePath,
           line := lineOfRef review.lineNumber, side := review.side }

/-- The body of the outer loop of `mapReviewsToComments` for one review
group: resolve the chunk by `chunkIndex` with `find`, `continue` when
absent, else push one comment per non-LEFT review. -/
def commentsForItem (diffChunks : List DiffChunkData) (item : Review) :
    List FormattedReview :=
  match diffChunks.find? (fun c => (c.chunkIndex : Int) == item.chunkIndex) with
  | none => []
  | some chunkData => item.reviews.filterMap (commentForReview chunkData)

/-- `mapReviewsToComments` from `src/main.ts`: comments accumulated over
all review groups in order. -/
def mapReviewsToComments (diffChunks : List DiffChunkData)
    (allReviews : List Review) : List FormattedReview :=
  allReviews.flatMap (commentsForItem diffChunks)


/-- The file-then-hunk flattening of the non-deleted files of a parsed
diff: the payload (path, hunk) that `gatherDiffData` stamps with indices. -/
def acceptedChunks (parsedDiff : List File) : List (String × Chunk) :=
  (parsedDiff.filter fun f => !(f.toPath == some "/dev/null")).flatMap
    fun f => f.chunks.map fun c => (f.toPath.getD "", c)

/-- Whether a change is an addition. -/
def Change.isAdd : Change → Bool
  | .add _ _ => true
  | _ => false

/-- Whether a parsed diff contains no added lines at all. -/
def hasNoAddedLines (fs : List File) : Bool :=
  fs.all fun f => f.chunks.all fun ch => ch.changes.all fun c => !c.isAdd

/-- Whether the `ln` field of a change is truthy in JS whenever present:
add and del records carry a nonzero line number. This holds of every
record `parse-diff` produces from a well-formed diff, whose line numbers
are 1-based. -/
def Change.lnTruthy : Change → Bool
  | .add ln _ => ln != 0
  | .del ln _ => ln != 0
  | .normal _ _ _ => true

/-- Whether a change record mentions a given absolute line number on
either side. -/
def Change.mentionsLine (c : Change) (n : Nat) : Bool :=
  match c with
  | .add ln _ => ln == n
  | .del ln _ => ln == n
  | .normal ln1 ln2 _ => ln1 == n || ln2 == n

/-- Modelled from the spec claim, for comparison with `renderChange`:
each line prefixed by its resolved line number chosen as the old line
number if present, else the new line number. In the spec data model an
added line carries only a new number, a removed line only an old number,
and a context line both, so this picks the old number on context lines. -/
def renderChangeOldFirst : Change → String
  | .add ln s => toString ln ++ " " ++ s
  | .del ln s => toString ln ++ " " ++ s
  | .normal ln1 _ s => toString ln1 ++ " " ++ s

/-- Modelled from the spec claim: the hunk header followed by one
old-number-first rendered line per changed line. -/
def renderChunkOldFirst (chunk : Chunk) : String :=
  String.intercalate "\n" (chunk.content :: chunk.changes.map renderChangeOldFirst)

/-- The rendering the code actually performs, stated per the amended
claim: an added line is prefixed by its new number, a removed line by its
old number, and a context line by its new number. -/
def renderChangeAmended : Change → String
  | .add ln s => toString ln ++ " " ++ s
  | .del ln s => toString ln ++ " " ++ s
  | .normal _ ln2 s => toString ln2 ++ " " ++ s

/-- The amended per-chunk rendering: header then amended lines. -/
def renderChunkAmended (chunk : Chunk) : String :=
  String.intercalate "\n" (chunk.content :: chunk.changes.map renderChangeAmended)

/-- Example: a hunk adding three lines to a new file. -/
def addChunk : Chunk :=
  { content := "@@ -0,0 +1,3 @@",
    changes := [.add 1 "+line one", .add 2 "+line two", .add 3 "+line three"] }

/-- Example: one file adding three lines in a single hunk. -/
def exFile : File := { toPath := some "src/app.py", chunks := [addChunk] }

/-- Example: a hunk holding one context line whose old and new numbers
differ (old 5, new 7), as happens after earlier hunks shift the file. -/
def ctxChunk : Chunk :=
  { content := "@@ -5,1 +7,1 @@", changes := [.normal 5 7 " same"] }

/-- Example: one file around `ctxChunk`. -/
def ctxFile : File := { toPath := some "b.txt", chunks := [ctxChunk] }

/-- Example: a modified (not deleted) file whose single hunk removes one
line and keeps one context line; no added lines anywhere. -/
def delOnlyFile : File :=
  { toPath := some "a.txt",
    chunks := [{ content := "@@ -1,2 +1,1 @@",
                 changes := [.del 1 "-x", .normal 1 1 " y"] }] }

/-- Example: a file with a mixed hunk touching lines 1 and 2 only. -/
def mixedFile : File :=
  { toPath := some "c.txt",
    chunks := [{ content := "@@ -1,3 +1,3 @@",
                 changes := [.normal 1 1 " a", .add 2 "+b", .del 2 "-c"] }] }

/-- Example: a deleted file carrying a hunk. -/
def sentinelFile : File :=
  { toPath := some "/dev/null",
    chunks := [{ content := "@@ -1,1 +0,0 @@", changes := [.del 1 "-x"] }] }

/-- Example: a deleted file with no hunks. -/
def sentinelEmptyFile : File := { toPath := some "/dev/null", chunks := [] }

/-- Example: a kept file with no hunks. -/
def keptEmptyFile : File := { toPath := some "kept.txt", chunks := [] }

/-- Example review group referencing the existing chunk 0. -/
def okItem : Review :=
  { chunkIndex := 0,
    reviews := [{ lineNumber := "+1", side := Side.RIGHT, reviewComment := "r" }] }

/-- Example review group referencing a chunk index no chunk carries. -/
def ghostItem : Review :=
  { chunkIndex := 99,
    reviews := [{ lineNumber := "+1", side := Side.RIGHT, reviewComment := "g" }] }

/-- Example review group with no reviews. -/
def emptyItem : Review := { chunkIndex := 0, reviews := [] }


theorem gatherChunks_map_index (p : String) (cs : List Chunk) :
    ∀ n, (gatherChunks p cs n).map (fun d => d.chunkIndex) = List.range' n cs.length := by
  induction cs with
  | nil => intro n; simp [gatherChunks]
  | cons c cs ih => intro n; simp [gatherChunks, List.range', ih]

theorem gatherChunks_length (p : String) (cs : List Chunk) (n : Nat) :
    (gatherChunks p cs n).length = cs.length := by
  induction cs generalizing n with
  | nil => simp [gatherChunks]
  | cons c cs ih => simp [gatherChunks, ih]

theorem gatherChunks_map_payload (p : String) (cs : List Chunk) (n : Nat) :
    (gatherChunks p cs n).map (fun d => (d.filePath, d.diffText)) =
      cs.map (fun c => (p, renderChunk c)) := by
  induction cs generalizing n with
  | nil => simp [gatherChunks]
  | cons c cs ih => simp [gatherChunks, ih]

theorem gatherDiffDataAux_map_index (fs : List File) :
    ∀ n, (gatherDiffDataAux fs n).map (fun d => d.chunkIndex) =
      List.range' n (gatherDiffDataAux fs n).length := by
  induction fs with
  | nil => intro n; simp [gatherDiffDataAux]
  | cons f rest ih =>
      intro n
      by_cases h : f.toPath = some "/dev/null"
      · simp [gatherDiffDataAux, h, ih]
      · simp only [gatherDiffDataAux, if_neg h, List.map_append, List.length_append,
          gatherChunks_map_index, gatherChunks_length, ih]
        rw [← List.range'_append]
        simp [Nat.add_comm]

theorem gatherDiffDataAux_map_payload (fs : List File) :
    ∀ n, (gatherDiffDataAux fs n).map (fun d => (d.filePath, d.diffText)) =
      (acceptedChunks fs).map (fun pc => (pc.1, renderChunk pc.2)) := by
  induction fs with
  | nil => intro n; simp [gatherDiffDataAux, acceptedChunks]
  | cons f rest ih =>
      intro n
      by_cases h : f.toPath = some "/dev/null"
      · simp [gatherDiffDataAux, acceptedChunks, List.filter_cons, h, ih]
      · simp [gatherDiffDataAux, acceptedChunks, List.filter_cons, h, ih,
          gatherChunks_map_payload]

theorem gatherDiffDataAux_sentinel_middle (delFile : File)
    (h : delFile.toPath = some "/dev/null") (post : List File) :
    ∀ pre n, gatherDiffDataAux (pre ++ delFile :: post) n =
      gatherDiffDataAux (pre ++ post) n := by
  intro pre
  induction pre with
  | nil => intro n; simp [gatherDiffDataAux, h]
  | cons f rest ih =>
      intro n
      by_cases hf : f.toPath = some "/dev/null" <;>
        simp [gatherDiffDataAux, hf, ih]

theorem renderChange_eq_amended (c : Change) (h : c.lnTruthy = true) :
    renderChange c = renderChangeAmended c := by
  cases c with
  | add ln s =>
      simp [Change.lnTruthy] at h
      simp [renderChange, renderChangeAmended, Change.lnField, Change.ln2Field,
        Change.content, jsShow, h]
  | del ln s =>
      simp [Change.lnTruthy] at h
      simp [renderChange, renderChangeAmended, Change.lnField, Change.ln2Field,
        Change.content, jsShow, h]
  | normal ln1 ln2 s =>
      simp [renderChange, renderChangeAmended, Change.lnField, Change.ln2Field,
        Change.content, jsShow]

theorem renderChunk_eq_amended (ch : Chunk)
    (h : ∀ c ∈ ch.changes, c.lnTruthy = true) :
    renderChunk ch = renderChunkAmended ch := by
  unfold renderChunk renderChunkAmended
  congr 2
  exact List.map_congr_left fun c hc => renderChange_eq_amended c (h c hc)

/-- Claim C1: gatherDiffData emits chunkIndex values forming a contiguous
0-based sequence with no gaps or repeats, each stored index equal to the
record's position in the output, and the records follow the non-deleted
files in file order then hunk order. -/
theorem gatherDiffData_contiguous (fs : List File) :
    (gatherDiffData fs).map (fun d => d.chunkIndex) =
      List.range (gatherDiffData fs).length ∧
    (gatherDiffData fs).map (fun d => (d.filePath, d.diffText)) =
      (acceptedChunks fs).map (fun pc => (pc.1, renderChunk pc.2)) := by
  constructor
  · rw [List.range_eq_range']
    exact gatherDiffDataAux_map_index fs 0
  · exact gatherDiffDataAux_map_payload fs 0

/-- Claim C2: getFormattedAIResponse returns the empty list, without
invoking the correction call, when the primary call failed (null) or
returned empty text; and returns the empty list when the correction call
throws or its payload does not parse against the schema. -/
theorem getFormattedAIResponse_no_partial
    (oracle : String → Except Unit (Option (List Review)))
    (rawContent : Option String) :
    ((rawContent = none ∨ rawContent = some "") →
        getFormattedAIResponse oracle rawContent = [] ∧
        correctionInvoked rawContent = false) ∧
    (∀ s, rawContent = some s → ¬s = "" →
        (oracle s = Except.error () ∨ oracle s = Except.ok none) →
        getFormattedAIResponse oracle rawContent = []) := by
  constructor
  · rintro (rfl | rfl) <;> simp [getFormattedAIResponse, correctionInvoked]
  · rintro s rfl hne (hor | hor) <;> simp [getFormattedAIResponse, hne, hor]

/-- Claim C3: a review group whose chunkIndex matches no indexed chunk
produces zero comments, and the remaining groups of the batch are mapped
exactly as if the unknown group were absent. -/
theorem unknown_chunkIndex_dropped (chunks : List DiffChunkData)
    (pre post : List Review) (item : Review)
    (h : ∀ c ∈ chunks, (c.chunkIndex : Int) ≠ item.chunkIndex) :
    commentsForItem chunks item = [] ∧
    mapReviewsToComments chunks (pre ++ item :: post) =
      mapReviewsToComments chunks pre ++ mapReviewsToComments chunks post := by
  have hfind : chunks.find? (fun c => (c.chunkIndex : Int) == item.chunkIndex) = none := by
    rw [List.find?_eq_none]
    intro c hc
    simpa using h c hc
  have hitem : commentsForItem chunks item = [] := by
    simp [commentsForItem, hfind]
  exact ⟨hitem, by simp [mapReviewsToComments, hitem]⟩

theorem unknown_chunkIndex_dropped_witness :
    commentsForItem (gatherDiffData [exFile]) ghostItem = [] ∧
    mapReviewsToComments (gatherDiffData [exFile]) ([okItem] ++ ghostItem :: [emptyItem]) =
      mapReviewsToComments (gatherDiffData [exFile]) [okItem] ++
        mapReviewsToComments (gatherDiffData [exFile]) [emptyItem] :=
  unknown_chunkIndex_dropped (gatherDiffData [exFile]) [okItem] [emptyItem] ghostItem
    (by decide)

/-- Claim C4: on a diff adding three lines in one file with one hunk,
gatherDiffData yields exactly one chunk, indexed 0, and the single review
item chunkIndex 0, lineNumber "+2", side RIGHT, comment "possible
off-by-one" maps to exactly one comment at that file's path, line 2, side
RIGHT, with that body. -/
theorem end_to_end_single_add_chunk :
    (gatherDiffData [exFile]).map (fun d => (d.chunkIndex, d.filePath)) =
      [(0, "src/app.py")] ∧
    mapReviewsToComments (gatherDiffData [exFile])
      [{ chunkIndex := 0,
         reviews := [{ lineNumber := "+2", side := Side.RIGHT,
                       reviewComment := "possible off-by-one" }] }] =
      [{ body := "possible off-by-one", path := "src/app.py",
         line := some 2, side := Side.RIGHT }] := by
  decide

/-- Claim C5: line-reference parsing discards signs and keeps the
magnitude: "+42" and "42" resolve to 42 and "-7" to 7; prefixing a sign
never changes the resolved line, and a RIGHT review's emitted comment
carries exactly the sign-stripped parse of its lineNumber. -/
theorem lineRef_sign_insensitive :
    lineOfRef "+42" = some 42 ∧ lineOfRef "42" = some 42 ∧
    lineOfRef "-7" = some 7 ∧
    (∀ s : String, lineOfRef (String.mk ('+' :: s.data)) = lineOfRef s ∧
        lineOfRef (String.mk ('-' :: s.data)) = lineOfRef s) ∧
    (∀ (chunkData : DiffChunkData) (review : RawReview),
        review.side = Side.RIGHT →
        commentForReview chunkData review =
          some { body := review.reviewComment, path := chunkData.filePath,
                 line := lineOfRef review.lineNumber, side := Side.RIGHT }) := by
  refine ⟨by decide, by decide, by decide, ?_, ?_⟩
  · intro s
    constructor <;> simp [lineOfRef, stripSigns, List.filter_cons]
  · intro chunkData review hside
    simp [commentForReview, hside]

/-- Claim C6: a file whose post-change path is the deletion sentinel
contributes zero indexed chunks, whatever the exclusion patterns and glob
matcher: the pipeline output with it present equals the output with it
removed. -/
theorem deleted_file_contributes_nothing (matchGlob : String → String → Bool)
    (excludePatterns : List String) (pre post : List File) (delFile : File)
    (h : delFile.toPath = some "/dev/null") :
    gatherDiffData (filterExcluded matchGlob excludePatterns (pre ++ delFile :: post)) =
      gatherDiffData (filterExcluded matchGlob excludePatterns (pre ++ post)) := by
  unfold gatherDiffData filterExcluded
  rw [List.filter_append, List.filter_append, List.filter_cons]
  by_cases hk : (!(excludePatterns.any fun pattern =>
      matchGlob (delFile.toPath.getD "") pattern)) = true
  · rw [if_pos hk]
    exact gatherDiffDataAux_sentinel_middle delFile h _ _ 0
  · rw [if_neg hk]

theorem deleted_file_contributes_nothing_witness :
    gatherDiffData (filterExcluded (fun _ _ => false) []
        ([exFile] ++ sentinelFile :: [ctxFile])) =
      gatherDiffData (filterExcluded (fun _ _ => false) [] ([exFile] ++ [ctxFile])) :=
  deleted_file_contributes_nothing (fun _ _ => false) [] [exFile] [ctxFile]
    sentinelFile rfl

/-- Claim C7, counterexample: a diff with only context and deletion
changes (no added lines) in a modified file still yields a chunk, so the
indexed chunk sequence is not empty. -/
theorem contextDeletionOnly_not_empty :
    hasNoAddedLines [delOnlyFile] = true ∧ gatherDiffData [delOnlyFile] ≠ [] := by
  decide

/-- Claim C7, amended: the indexed chunk sequence is empty for diffs in
which every file either carries the deletion sentinel path or has no
hunks. -/
theorem gatherDiffData_empty_of_all_trivial (fs : List File)
    (h : ∀ f ∈ fs, f.toPath = some "/dev/null" ∨ f.chunks = []) :
    gatherDiffData fs = [] := by
  suffices haux : ∀ n, gatherDiffDataAux fs n = [] from haux 0
  induction fs with
  | nil => intro n; simp [gatherDiffDataAux]
  | cons f rest ih =>
      intro n
      have hf := h f (List.mem_cons_self f rest)
      have hrest : ∀ g ∈ rest, g.toPath = some "/dev/null" ∨ g.chunks = [] :=
        fun g hg => h g (List.mem_cons_of_mem f hg)
      rcases hf with hf | hf
      · simp [gatherDiffDataAux, hf, ih hrest]
      · by_cases hs : f.toPath = some "/dev/null"
        · simp [gatherDiffDataAux, hs, ih hrest]
        · simp [gatherDiffDataAux, hs, hf, gatherChunks, ih hrest]

theorem gatherDiffData_empty_of_all_trivial_witness :
    gatherDiffData [sentinelFile, keptEmptyFile] = [] :=
  gatherDiffData_empty_of_all_trivial [sentinelFile, keptEmptyFile] (by decide)

/-- Claim C8, counterexample: on a context line whose old and new numbers
differ, the rendered text prefixes the new number (7), not the old
number (5) demanded by the old-number-first reading of the claim. -/
theorem renderedText_oldFirst_refuted :
    (gatherDiffData [ctxFile]).map (fun d => d.diffText) =
      ["@@ -5,1 +7,1 @@\n7  same"] ∧
    renderChunkOldFirst ctxChunk = "@@ -5,1 +7,1 @@\n5  same" ∧
    (gatherDiffData [ctxFile]).map (fun d => d.diffText) ≠
      [renderChunkOldFirst ctxChunk] := by
  decide

/-- Claim C8, amended: for every indexed chunk of a diff whose add and
remove records carry nonzero line numbers, the rendered text is the hunk
header followed by one line per changed line, each prefixed by its
resolved line number chosen as the change's own number for added (new)
and removed (old) lines and the new number for context lines. -/
theorem gatherDiffData_renderedText (fs : List File)
    (h : ∀ f ∈ fs, ∀ ch ∈ f.chunks, ∀ c ∈ ch.changes, c.lnTruthy = true) :
    (gatherDiffData fs).map (fun d => (d.filePath, d.diffText)) =
      (acceptedChunks fs).map (fun pc => (pc.1, renderChunkAmended pc.2)) := by
  rw [show gatherDiffData fs = gatherDiffDataAux fs 0 from rfl,
    gatherDiffDataAux_map_payload fs 0]
  apply List.map_congr_left
  intro pc hpc
  simp only [acceptedChunks, List.mem_flatMap, List.mem_filter, List.mem_map] at hpc
  obtain ⟨f, ⟨hf, hsent⟩, c, hc, rfl⟩ := hpc
  simp only
  rw [renderChunk_eq_amended c (fun ch hch => h f hf c hc ch hch)]

theorem gatherDiffData_renderedText_witness :
    (gatherDiffData [exFile, ctxFile]).map (fun d => (d.filePath, d.diffText)) =
      (acceptedChunks [exFile, ctxFile]).map
        (fun pc => (pc.1, renderChunkAmended pc.2)) :=
  gatherDiffData_renderedText [exFile, ctxFile] (by decide)

/-- Claim C9: every comment the mapper emits has side RIGHT: a LEFT-side
review produces no comment, so no LEFT-side comment reaches submission. -/
theorem comments_always_right :
    (∀ (chunkData : DiffChunkData) (review : RawReview),
        review.side = Side.LEFT →
        commentForReview chunkData review = none) ∧
    (∀ (diffChunks : List DiffChunkData) (allReviews : List Review)
        (c : FormattedReview), c ∈ mapReviewsToComments diffChunks allReviews →
        c.side = Side.RIGHT) := by
  constructor
  · intro chunkData review hL
    simp [commentForReview, hL]
  · intro diffChunks allReviews c hc
    simp only [mapReviewsToComments, List.mem_flatMap] at hc
    obtain ⟨item, _, hc⟩ := hc
    unfold commentsForItem at hc
    cases hfind : diffChunks.find? (fun d => (d.chunkIndex : Int) == item.chunkIndex) with
    | none => rw [hfind] at hc; simp at hc
    | some chunkData =>
        rw [hfind] at hc
        simp only [List.mem_filterMap] at hc
        obtain ⟨review, _, hcr⟩ := hc
        unfold commentForReview at hcr
        by_cases hL : review.side = Side.LEFT
        · simp [hL] at hcr
        · simp only [if_neg hL, Option.some_inj] at hcr
          have hR : review.side = Side.RIGHT := by
            cases hside : review.side with
            | LEFT => exact absurd hside hL
            | RIGHT => rfl
          rw [← hcr]
          simpa using hR

/-- Claim C10: the mapper does not check that the referenced line occurs
in the referenced chunk: a review naming line 999, absent from the only
chunk's change set, still yields a comment at line 999. -/
theorem mapper_no_line_membership_check :
    (mixedFile.chunks.all fun ch =>
        ch.changes.all fun c => !(c.mentionsLine 999)) = true ∧
    mapReviewsToComments (gatherDiffData [mixedFile])
      [{ chunkIndex := 0,
         reviews := [{ lineNumber := "999", side := Side.RIGHT,
                       reviewComment := "ghost" }] }] =
      [{ body := "ghost", path := "c.txt",
         line := some 999, side := Side.RIGHT }] := by
  decide

end CodeReviewer
